import Mathlib

/-!
Verification development for the ai-agent-rag repository.

The Python source (src/app/rag.py, src/app/agent.py) is shallowly embedded:
text is `List Char` or `String`, Python ints are `Int`/`Nat`, floats that only
ever carry exact decimal halves are compared via equivalent integer
inequalities, Python dicts keyed by strings are functions or association
lists, raised exceptions are `Except`/`Option`, and external providers
(LLM, embedding client, `json.loads`, `str()`) are injected function
parameters, mirroring the spec's dependency-injection design note.
-/

namespace AgentRag

/-! ## Basic character/string utilities shared by the embeddings -/

/-- Left brace character, kept as a named constant. -/
def lbrace : Char := Char.ofNat 123

/-- Right brace character, kept as a named constant. -/
def rbrace : Char := Char.ofNat 125

/-- Left square-bracket character. -/
def lbrack : Char := Char.ofNat 91

/-- Right square-bracket character. -/
def rbrack : Char := Char.ofNat 93

/-- Single-quote character. -/
def quoteChar : Char := Char.ofNat 39

/-- Double-quote character. -/
def dquoteChar : Char := Char.ofNat 34

/-- Whitespace characters recognised by Python `str.strip()` (ASCII subset). -/
def pyIsSpace (c : Char) : Bool :=
  c = ' ' ∨ c = '\t' ∨ c = '\n' ∨ c = '\r' ∨ c = Char.ofNat 11 ∨ c = Char.ofNat 12

/-- Python `str.strip()` on a character list: drop whitespace from both ends. -/
def pystrip (l : List Char) : List Char :=
  ((l.dropWhile pyIsSpace).reverse.dropWhile pyIsSpace).reverse

/-- Last index of character `c` in the list, if any (models Python `rfind` hits). -/
def lastIdxOf (c : Char) : List Char → Option Nat
  | [] => none
  | x :: xs =>
    match lastIdxOf c xs with
    | some i => some (i + 1)
    | none => if x = c then some 0 else none

/-- Python `str.rfind(c)`: last index of `c`, or `-1` when absent. -/
def pyRfind (c : Char) (l : List Char) : Int :=
  match lastIdxOf c l with
  | some i => (i : Int)
  | none => -1

/-- Python slice `l[a:b]` with possibly negative `Int` endpoints. -/
def pyslice (l : List Char) (a b : Int) : List Char :=
  let n : Int := l.length
  let a' := if a < 0 then max 0 (n + a) else min a n
  let b' := if b < 0 then max 0 (n + b) else min b n
  (l.take b'.toNat).drop a'.toNat

/-! ## Chunker (src/app/rag.py, DocumentProcessor.chunk_text, lines 41-71) -/

/-- One iteration body of the `while start < text_length` loop of
`DocumentProcessor.chunk_text`: computes the chunk to append (before
stripping) and the updated `end` used for the next `start = end - overlap`.
The float test `break_point > chunk_size * 0.5` is expressed by the exact
integer equivalent `2 * break_point > chunk_size`. -/
def chunkLoopStep (text : List Char) (chunk_size : Int) (start : Int) :
    List Char × Int :=
  let e := start + chunk_size
  let chunk := pyslice text start e
  if e < (text.length : Int) then
    let break_point := max (pyRfind '.' chunk) (pyRfind '\n' chunk)
    if 2 * break_point > chunk_size then
      (pyslice chunk 0 (break_point + 1), start + break_point + 1)
    else
      (chunk, e)
  else
    (chunk, e)

/-- Fuel-indexed run of the `while start < text_length` loop of
`chunk_text`.  `none` means the fuel ran out while the loop guard was still
true, so the source loop runs for more iterations than the given fuel; if
this holds for every fuel, the source loop does not terminate. -/
def chunkLoop (text : List Char) (chunk_size chunk_overlap : Int) :
    Nat → Int → Option (List (List Char))
  | 0, start => if start < (text.length : Int) then none else some []
  | fuel + 1, start =>
    if start < (text.length : Int) then
      let step := chunkLoopStep text chunk_size start
      (chunkLoop text chunk_size chunk_overlap fuel (step.2 - chunk_overlap)).map
        (fun rest => pystrip step.1 :: rest)
    else
      some []

/-- `DocumentProcessor.chunk_text` from src/app/rag.py: empty input yields
`[]`; otherwise the loop runs (given enough fuel) and empty stripped chunks
are filtered out at the end. -/
def chunk_text (text : List Char) (chunk_size chunk_overlap : Int)
    (fuel : Nat) : Option (List (List Char)) :=
  if text.isEmpty then some []
  else (chunkLoop text chunk_size chunk_overlap fuel 0).map
    (fun chunks => chunks.filter (fun c => ¬ c.isEmpty))

/-- With `text = "ab"`, `chunk_size = 1`, `chunk_overlap = 1`, every loop
iteration starts at 0 and sets `start` back to `end - overlap = 0`. -/
theorem chunkLoop_ab_stuck (fuel : Nat) :
    chunkLoop ['a', 'b'] 1 1 fuel 0 = none := by
  induction fuel with
  | zero => rfl
  | succ n ih =>
    have hstep : chunkLoopStep ['a', 'b'] 1 0 = (['a'], 1) := by decide
    have hnext : chunkLoop ['a', 'b'] 1 1 n (1 - 1) = none := by
      norm_num [ih]
    rw [chunkLoop, if_pos (by decide : (0 : Int) < ((['a', 'b'] : List Char).length : Int)),
      hstep]
    show (chunkLoop ['a', 'b'] 1 1 n ((1 : Int) - 1)).map
      (fun rest => pystrip ['a'] :: rest) = none
    rw [hnext]
    rfl

/-- C1: for every positive chunk size and non-negative overlap — including
the degenerate case `chunk_overlap ≥ chunk_size` — `chunk_text` makes
positive progress on every iteration and terminates.  The code has no guard:
at `text = "ab"`, `chunk_size = 1`, `chunk_overlap = 1` the loop guard stays
true with `start = 0` forever, so no amount of fuel completes the loop. -/
theorem chunk_text_overlap_ge_size_diverges (fuel : Nat) :
    chunk_text ['a', 'b'] 1 1 fuel = none := by
  rw [chunk_text, if_neg (by decide : ¬ ((['a', 'b'] : List Char).isEmpty = true)),
    chunkLoop_ab_stuck]
  rfl

/-! ## Python-value model

Python objects decoded from JSON (and the open metadata maps of the data
model) are represented by this inductive type. -/

/-- Model of a decoded Python/JSON value. -/
inductive Json where
  | null
  | bool (b : Bool)
  | num (n : Int)
  | str (s : String)
  | arr (elems : List Json)
  | obj (fields : List (String × Json))

/-! ## Session memory (src/app/agent.py, AgentMemory, lines 12-46) -/

/-- A message as built by `AgentMemory.add_message`. -/
structure Message where
  role : String
  content : String
  timestamp : String
  metadata : Json

/-- The sessions dict of `AgentMemory`, observed through lookups: a missing
key and an empty list are indistinguishable to `get_history`. -/
def AgentMemory := String → List Message

/-- Memory with no sessions. -/
def emptyMemory : AgentMemory := fun _ => []

/-- `AgentMemory.add_message`: appends a message to the session's list,
creating the session on first use.  The wall-clock timestamp is injected;
`metadata or {}` turns a missing metadata map into an empty one. -/
def add_message (m : AgentMemory) (session_id role content timestamp : String)
    (metadata : Option Json) : AgentMemory :=
  fun s =>
    if s = session_id then
      m s ++ [⟨role, content, timestamp, metadata.getD (Json.obj [])⟩]
    else m s

/-- `AgentMemory.get_history`: `history[-limit:]` when `limit` is truthy
(`some n` with `n ≠ 0`), the whole history otherwise.  For `n > 0`,
Python `history[-n:]` is the last `min n len` elements, i.e.
`drop (len - n)`. -/
def get_history (m : AgentMemory) (session_id : String) (limit : Option Nat) :
    List Message :=
  let history := m session_id
  match limit with
  | some n => if n ≠ 0 then history.drop (history.length - n) else history
  | none => history

/-- `AgentMemory.clear_session`: deletes the session key; afterwards lookups
of that session see the empty list. -/
def clear_session (m : AgentMemory) (session_id : String) : AgentMemory :=
  fun s => if s = session_id then [] else m s

/-- Memory holding exactly one message, in session "A". -/
def memOneMsg : AgentMemory :=
  add_message emptyMemory "A" "user" "hello" "t0" none

/-- C3 counterexample: with one appended message and `limit = 0`, the code
returns the entire (1-element) history because `if limit:` treats 0 as
falsy, whereas the claim demands `min 0 1 = 0` messages. -/
theorem get_history_zero_limit_counterexample :
    (get_history memOneMsg "A" (some 0)).length = 1 ∧
      min 0 ((memOneMsg "A").length) = 0 := by
  exact ⟨rfl, rfl⟩

/-- C3 (amended): for every session and every positive limit `n`,
`get_history` returns a suffix of the session's messages (hence the last
ones, in original append order) of length `min n M`; for `n = 0` the whole
history is returned. -/
theorem get_history_last_min_spec (m : AgentMemory) (sid : String) (n : Nat) :
    (0 < n →
      get_history m sid (some n) <:+ m sid ∧
        (get_history m sid (some n)).length = min n (m sid).length) ∧
      get_history m sid (some 0) = m sid := by
  constructor
  · intro hn
    have hne : n ≠ 0 := Nat.pos_iff_ne_zero.mp hn
    constructor
    · show (if n ≠ 0 then (m sid).drop ((m sid).length - n) else m sid) <:+ m sid
      rw [if_pos hne]
      exact List.drop_suffix _ _
    · show (if n ≠ 0 then (m sid).drop ((m sid).length - n) else m sid).length =
        min n (m sid).length
      rw [if_pos hne, List.length_drop]
      omega
  · show (if (0 : Nat) ≠ 0 then (m sid).drop ((m sid).length - 0) else m sid) = m sid
    simp

/-- Witness for the amended C3 theorem at a concrete memory and limit. -/
theorem get_history_last_min_spec_witness :
    get_history memOneMsg "A" (some 5) <:+ memOneMsg "A" ∧
      (get_history memOneMsg "A" (some 5)).length = min 5 (memOneMsg "A").length :=
  (get_history_last_min_spec memOneMsg "A" 5).1 (by decide)

/-- C9: appending to session `sidA` leaves reads of any other session
`sidB` unchanged; clearing `sidA` empties subsequent reads of `sidA` and
leaves every other session's history unchanged. -/
theorem memory_isolation_clear_spec (m : AgentMemory)
    (sidA sidB role content ts : String) (md : Option Json) (lim : Option Nat)
    (hne : sidB ≠ sidA) :
    get_history (add_message m sidA role content ts md) sidB lim =
        get_history m sidB lim ∧
      get_history (clear_session m sidA) sidA lim = [] ∧
      get_history (clear_session m sidA) sidB lim = get_history m sidB lim := by
  refine ⟨?_, ?_, ?_⟩
  · unfold get_history add_message
    simp [hne]
  · unfold get_history clear_session
    cases lim with
    | none => simp
    | some n => simp
  · unfold get_history clear_session
    simp [hne]

/-- Witness for C9 at concrete sessions "A" and "B". -/
theorem memory_isolation_clear_spec_witness :
    get_history (add_message memOneMsg "A" "user" "x" "t1" none) "B" none =
        get_history memOneMsg "B" none ∧
      get_history (clear_session memOneMsg "A") "A" none = [] ∧
      get_history (clear_session memOneMsg "A") "B" none =
        get_history memOneMsg "B" none :=
  memory_isolation_clear_spec memOneMsg "A" "B" "user" "x" "t1" none none
    (by decide)

/-! ## Calculator tool (src/app/agent.py, AgentTools.calculate, lines 57-69) -/

/-- The character whitelist `set("0123456789+-*/.() ")` of
`AgentTools.calculate`. -/
def allowedChars : List Char :=
  ['0', '1', '2', '3', '4', '5', '6', '7', '8', '9',
   '+', '-', '*', '/', '.', '(', ')', ' ']

/-- `AgentTools.calculate`: the whitelist check runs first and returns the
invalid-characters error before anything is evaluated; only then is the
expression handed to Python `eval` — modelled as the injected `evalFn`,
whose exceptions (`Except.error`) the surrounding `try/except` converts to
an error string. -/
def calculate (evalFn : List Char → Except String String)
    (expression : List Char) : String :=
  if expression.all (fun c => allowedChars.contains c) then
    match evalFn expression with
    | .ok v => v
    | .error e => "Error: " ++ e
  else "Error: Invalid characters in expression"

/-- C5: an expression containing any character outside the whitelist yields
the invalid-characters error string for every evaluator — i.e. before and
independent of any evaluation; and when the whitelist passes, an evaluator
exception is caught and returned as an error string, never re-raised. -/
theorem calculate_safety :
    (∀ expression : List Char,
      expression.all (fun c => allowedChars.contains c) = false →
      ∀ evalFn, calculate evalFn expression =
        "Error: Invalid characters in expression") ∧
      ∀ (expression : List Char) (e : String),
        expression.all (fun c => allowedChars.contains c) = true →
        calculate (fun _ => .error e) expression = "Error: " ++ e := by
  constructor
  · intro expression h evalFn
    unfold calculate
    rw [if_neg (by rw [h]; exact Bool.false_ne_true)]
  · intro expression e h
    unfold calculate
    rw [if_pos h]

/-- Witness for C5: `"import os"` (contains letters) hits the guard for an
arbitrary evaluator, and a division-by-zero exception inside evaluation of
a whitelisted expression is returned as an error string. -/
theorem calculate_safety_witness :
    calculate (fun _ => .ok "42") ("import os".toList) =
        "Error: Invalid characters in expression" ∧
      calculate (fun _ => .error "division by zero") ("1/0".toList) =
        "Error: " ++ "division by zero" :=
  ⟨calculate_safety.1 ("import os".toList) (by decide) _,
   calculate_safety.2 ("1/0".toList) "division by zero" (by decide)⟩

/-! ## Vector store (src/app/rag.py, FAISSVectorStore, lines 167-231) -/

/-- A document chunk as stored in `FAISSVectorStore.documents`. -/
structure Chunk where
  content : String
  source : String
  chunk_id : Nat
  metadata : Json

/-- `FAISSVectorStore`: the FAISS `IndexFlatL2` contents are the stored
vectors in insertion order (`ntotal = vectors.length`), alongside the
parallel `documents` list.  Embedding coordinates are modelled as exact
rationals. -/
structure FAISSVectorStore where
  dimension : Nat
  vectors : List (List ℚ)
  documents : List Chunk

/-- `FAISSVectorStore.add_documents`: returns silently when either input
list is empty; raises the mismatch `ValueError` when the lengths differ;
otherwise appends vectors and documents in lockstep at the end. -/
def FAISSVectorStore.add_documents (s : FAISSVectorStore)
    (documents : List Chunk) (embeddings : List (List ℚ)) :
    Except String FAISSVectorStore :=
  if documents.isEmpty || embeddings.isEmpty then .ok s
  else if documents.length ≠ embeddings.length then
    .error "Number of documents must match number of embeddings"
  else .ok { s with vectors := s.vectors ++ embeddings,
                    documents := s.documents ++ documents }

/-- A fresh store of the default dimension. -/
def emptyStore : FAISSVectorStore := ⟨1536, [], []⟩

/-- A sample chunk. -/
def demoChunk : Chunk := ⟨"hello world", "doc.txt", 0, Json.obj []⟩

/-- C2 counterexample: with zero documents and one embedding the lengths
differ, yet `add_documents` silently no-ops (`if not documents or not
embeddings: return`) instead of failing with the mismatch error. -/
theorem add_documents_one_empty_counterexample :
    FAISSVectorStore.add_documents emptyStore [] [[(1 : ℚ)]] = .ok emptyStore ∧
      ([] : List Chunk).length ≠ [[(1 : ℚ)]].length := by
  exact ⟨rfl, by decide⟩

/-- C2 (amended): `add_documents` is a no-op whenever either input list is
empty; only when both are non-empty does a length mismatch raise the
error; and on matching non-empty inputs both lists are appended at the
end, preserving relative order. -/
theorem add_documents_spec (s : FAISSVectorStore) (docs : List Chunk)
    (embs : List (List ℚ)) :
    (docs = [] ∨ embs = [] → s.add_documents docs embs = .ok s) ∧
      (docs ≠ [] → embs ≠ [] → docs.length ≠ embs.length →
        s.add_documents docs embs =
          .error "Number of documents must match number of embeddings") ∧
      (docs ≠ [] → embs ≠ [] → docs.length = embs.length →
        s.add_documents docs embs =
          .ok ⟨s.dimension, s.vectors ++ embs, s.documents ++ docs⟩) := by
  refine ⟨?_, ?_, ?_⟩
  · intro h
    unfold FAISSVectorStore.add_documents
    rcases h with h | h <;> subst h <;> simp
  · intro hd he hne
    unfold FAISSVectorStore.add_documents
    rw [if_neg (by simp [hd, he]), if_pos hne]
  · intro hd he heq
    unfold FAISSVectorStore.add_documents
    rw [if_neg (by simp [hd, he]), if_neg (by simp [heq])]

/-- Witness for the amended C2 theorem: one-sided-empty no-op, mismatch
error, and an order-preserving append, each at concrete inputs. -/
theorem add_documents_spec_witness :
    FAISSVectorStore.add_documents emptyStore [demoChunk] [] = .ok emptyStore ∧
      FAISSVectorStore.add_documents emptyStore [demoChunk] [[1], [2]] =
        .error "Number of documents must match number of embeddings" ∧
      FAISSVectorStore.add_documents emptyStore [demoChunk] [[(1 : ℚ)]] =
        .ok ⟨1536, [] ++ [[(1 : ℚ)]], [] ++ [demoChunk]⟩ :=
  ⟨(add_documents_spec emptyStore [demoChunk] []).1 (Or.inr rfl),
   (add_documents_spec emptyStore [demoChunk] [[1], [2]]).2.1
     (by simp) (by simp) (by decide),
   (add_documents_spec emptyStore [demoChunk] [[(1 : ℚ)]]).2.2
     (by simp) (by simp) (by decide)⟩

/-! ## Vector search (src/app/rag.py, FAISSVectorStore.search, lines 193-216) -/

/-- Squared Euclidean distance — the score FAISS `IndexFlatL2` reports. -/
def sqDist (u v : List ℚ) : ℚ :=
  (List.zipWith (fun a b => (a - b) ^ 2) u v).sum

/-- Ordering of (score, index) pairs by score. -/
def scoreLE (a b : ℚ × Nat) : Prop := a.1 ≤ b.1

instance : DecidableRel scoreLE := fun a b =>
  inferInstanceAs (Decidable (a.1 ≤ b.1))

instance : IsTotal (ℚ × Nat) scoreLE := ⟨fun a b => le_total a.1 b.1⟩

instance : IsTrans (ℚ × Nat) scoreLE := ⟨fun _ _ _ hab hbc => le_trans hab hbc⟩

/-- Modelled from the spec: the FAISS `IndexFlatL2` search black box
("nearest-neighbor search by Euclidean distance", spec §2; the vector-math
library itself is outside the repository).  Exact search over the stored
vectors: all (distance, index) pairs sorted by ascending distance (stably,
so ties keep insertion order) with the first `k` returned. -/
def indexFlatL2Search (vectors : List (List ℚ)) (query : List ℚ) (k : Nat) :
    List (ℚ × Nat) :=
  (List.insertionSort scoreLE
    (vectors.enum.map (fun p => (sqDist query p.2, p.1)))).take k

/-- `FAISSVectorStore.search`: an empty index returns `[]` immediately;
otherwise FAISS is asked for `min top_k ntotal` neighbours and every
returned index within range of the documents list yields a
(document, score) pair, in FAISS's order. -/
def FAISSVectorStore.search (s : FAISSVectorStore) (query : List ℚ)
    (top_k : Nat) : List (Chunk × ℚ) :=
  if s.vectors.length = 0 then []
  else
    (indexFlatL2Search s.vectors query (min top_k s.vectors.length)).filterMap
      (fun p => (s.documents.get? p.2).map (fun doc => (doc, p.1)))

/-- Scores of the document-joined results form a sublist of the scores
FAISS returned, in the same order. -/
theorem filterMap_doc_snd_sublist (docs : List Chunk)
    (res : List (ℚ × Nat)) :
    List.Sublist
      ((res.filterMap
        (fun p => (docs.get? p.2).map (fun doc => (doc, p.1)))).map Prod.snd)
      (res.map Prod.fst) := by
  induction res with
  | nil => simp
  | cons a t ih =>
    cases h : docs.get? a.2 with
    | none =>
      simp only [List.filterMap_cons, h, Option.map_none, List.map_cons]
      exact ih.cons _
    | some doc =>
      simp only [List.filterMap_cons, h, Option.map_some, List.map_cons]
      exact ih.cons₂ _

/-- C7: `FAISSVectorStore.search` returns at most `min k count` results,
their scores are in ascending order (a distance: lower is more similar),
and an index with zero entries yields the empty sequence. -/
theorem vector_store_search_spec (s : FAISSVectorStore) (query : List ℚ)
    (k : Nat) :
    (s.search query k).length ≤ min k s.vectors.length ∧
      List.Sorted (· ≤ ·) ((s.search query k).map Prod.snd) ∧
      (s.vectors = [] → s.search query k = []) := by
  by_cases hz : s.vectors.length = 0
  · have hsearch : s.search query k = [] := by
      unfold FAISSVectorStore.search
      rw [if_pos hz]
    refine ⟨by simp [hsearch], by simp [hsearch], fun _ => hsearch⟩
  · have hsearch : s.search query k =
        (indexFlatL2Search s.vectors query (min k s.vectors.length)).filterMap
          (fun p => (s.documents.get? p.2).map (fun doc => (doc, p.1))) := by
      unfold FAISSVectorStore.search
      rw [if_neg hz]
    have hsub := filterMap_doc_snd_sublist s.documents
      (indexFlatL2Search s.vectors query (min k s.vectors.length))
    refine ⟨?_, ?_, fun h => absurd (by simp [h]) hz⟩
    · have h1 : (s.search query k).length =
          ((s.search query k).map Prod.snd).length := by simp
      have h2 := hsub.length_le
      have h3 : ((indexFlatL2Search s.vectors query
          (min k s.vectors.length)).map Prod.fst).length ≤
          min k s.vectors.length := by
        unfold indexFlatL2Search
        simp
      rw [hsearch] at h1 ⊢
      omega
    · have hsorted : List.Sorted scoreLE
          (List.insertionSort scoreLE
            (s.vectors.enum.map (fun p => (sqDist query p.2, p.1)))) :=
        List.sorted_insertionSort scoreLE _
      have htake : List.Sorted scoreLE
          (indexFlatL2Search s.vectors query (min k s.vectors.length)) :=
        hsorted.sublist (List.take_sublist _ _)
      have hfst : List.Sorted (· ≤ ·)
          ((indexFlatL2Search s.vectors query
            (min k s.vectors.length)).map Prod.fst) := by
        rw [List.Sorted, List.pairwise_map]
        exact htake
      rw [hsearch]
      exact hfst.sublist hsub

/-- Witness for C7 at a concrete two-entry store and query. -/
theorem vector_store_search_spec_witness :
    ((⟨2, [[0, 0], [3, 4]], [demoChunk, demoChunk]⟩ :
        FAISSVectorStore).search [1, 1] 5).length ≤ min 5 2 ∧
      List.Sorted (· ≤ ·)
        (((⟨2, [[0, 0], [3, 4]], [demoChunk, demoChunk]⟩ :
          FAISSVectorStore).search [1, 1] 5).map Prod.snd) ∧
      (((⟨2, [[0, 0], [3, 4]], [demoChunk, demoChunk]⟩ :
          FAISSVectorStore).vectors = []) →
        (⟨2, [[0, 0], [3, 4]], [demoChunk, demoChunk]⟩ :
          FAISSVectorStore).search [1, 1] 5 = []) :=
  vector_store_search_spec ⟨2, [[0, 0], [3, 4]], [demoChunk, demoChunk]⟩ [1, 1] 5

/-! ## Retrieval engine (src/app/rag.py, RAGSystem, lines 234-305) -/

/-- `RAGSystem` state: the vector store plus the readiness flag. -/
structure RAGState where
  vector_store : FAISSVectorStore
  is_initialized : Bool

/-- `RAGSystem.search` (lines 275-288), instrumented with a count of calls
made to the injected embedding provider.  Not-ready returns `[]` before any
embedding call; otherwise the query is embedded (one call) and the store is
searched with `top_k or settings.top_k_results`. -/
def ragSearch (embed : String → List ℚ) (default_top_k : Nat) (st : RAGState)
    (query : String) (top_k : Option Nat) : List (Chunk × ℚ) × Nat :=
  if st.is_initialized = false then ([], 0)
  else
    let k := match top_k with
      | some n => if n ≠ 0 then n else default_top_k
      | none => default_top_k
    (st.vector_store.search (embed query) k, 1)

/-- C8: when the engine is not initialized, `search` returns the empty
sequence immediately and performs zero embedding calls, for every query and
requested `k`. -/
theorem rag_search_not_ready (embed : String → List ℚ) (default_top_k : Nat)
    (st : RAGState) (query : String) (top_k : Option Nat)
    (h : st.is_initialized = false) :
    ragSearch embed default_top_k st query top_k = ([], 0) := by
  unfold ragSearch
  rw [if_pos h]

/-- Witness for C8 on a fresh, never-ingested engine. -/
theorem rag_search_not_ready_witness :
    ragSearch (fun _ => [1, 2]) 3 ⟨emptyStore, false⟩ "any query" (some 4) =
      ([], 0) :=
  rag_search_not_ready (fun _ => [1, 2]) 3 ⟨emptyStore, false⟩ "any query"
    (some 4) rfl

/-! ## Ingestion (src/app/rag.py, RAGSystem.ingest_documents, lines 244-273) -/

/-- The `{total_documents, total_chunks, status}` dict that
`ingest_documents` returns. -/
structure IngestResult where
  total_documents : Nat
  total_chunks : Nat
  status : String

/-- `RAGSystem.ingest_documents`.  Per-path processing
(`DocumentProcessor.process_document`: load → chunk → tag with metadata)
and the embedding provider are injected; a path whose processing raises is
logged and skipped.  An empty accumulated chunk list raises
`ValueError("No documents were successfully processed")`; otherwise the
accumulated chunk texts are embedded, added to the store, and the system is
marked initialized. -/
def ingest_documents (process : String → Except String (List Chunk))
    (embed : String → List ℚ) (st : RAGState) (document_paths : List String) :
    Except String (RAGState × IngestResult) :=
  let all_documents := document_paths.foldl
    (fun acc p => match process p with
      | .ok chunks => acc ++ chunks
      | .error _ => acc) []
  if all_documents.isEmpty then
    .error "No documents were successfully processed"
  else
    let embeddings := (all_documents.map (fun d => d.content)).map embed
    match st.vector_store.add_documents all_documents embeddings with
    | .error e => .error e
    | .ok store =>
      .ok (⟨store, true⟩,
        ⟨document_paths.length, all_documents.length, "success"⟩)

/-- The chunks accumulated across the batch: those of each path whose
processing succeeded, in path order. -/
def successChunks (process : String → Except String (List Chunk))
    (paths : List String) : List Chunk :=
  (paths.map (fun p => match process p with
    | .ok c => c
    | .error _ => [])).flatten

/-- The accumulation loop of `ingest_documents` computes `successChunks`. -/
theorem ingest_foldl_eq (process : String → Except String (List Chunk)) :
    ∀ (paths : List String) (init : List Chunk),
      paths.foldl (fun acc p => match process p with
        | .ok chunks => acc ++ chunks
        | .error _ => acc) init = init ++ successChunks process paths := by
  intro paths
  induction paths with
  | nil => intro init; simp [successChunks]
  | cons p t ih =>
    intro init
    cases h : process p with
    | ok chunks =>
      simp only [List.foldl_cons, h, ih, successChunks, List.map_cons,
        List.flatten_cons, List.append_assoc]
    | error e =>
      simp only [List.foldl_cons, h, ih, successChunks, List.map_cons,
        List.flatten_cons, List.append_assoc, List.nil_append]

/-- A non-empty accumulated chunk list requires at least one path whose
processing succeeded. -/
theorem successChunks_ne_nil_exists
    (process : String → Except String (List Chunk)) :
    ∀ paths : List String, successChunks process paths ≠ [] →
      ∃ p ∈ paths, (process p).isOk = true := by
  intro paths
  induction paths with
  | nil => intro h; exact absurd rfl h
  | cons p t ih =>
    intro h
    cases hp : process p with
    | ok chunks =>
      exact ⟨p, List.mem_cons_self p t, by rw [hp]; rfl⟩
    | error e =>
      have ht : successChunks process t ≠ [] := by
        intro he
        apply h
        simp [successChunks, hp] at *
        exact he
      obtain ⟨q, hq, hok⟩ := ih ht
      exact ⟨q, List.mem_cons_of_mem p hq, hok⟩

/-- Processing that succeeds on every path but extracts zero chunks
(e.g. an empty text file: `chunk_text ""` is `[]`). -/
def processEmptyOk : String → Except String (List Chunk) := fun _ => .ok []

/-- C6 counterexample: a path whose processing succeeds with zero chunks
still makes `ingest_documents` fail with the no-documents error, so the
failure condition is not "zero documents successfully processed". -/
theorem ingest_zero_chunks_counterexample :
    ingest_documents processEmptyOk (fun _ => []) ⟨emptyStore, false⟩
        ["empty.txt"] = .error "No documents were successfully processed" ∧
      (processEmptyOk "empty.txt").isOk = true := by
  exact ⟨rfl, rfl⟩

/-- C6 (amended): failing paths are skipped and the rest processed;
`ingest_documents` fails with the no-documents error if and only if the
accumulated chunk list across the whole batch is empty (which can happen
even when some path was successfully processed, if it yielded no chunks);
when the accumulated chunks are non-empty they are embedded, appended to
the index, and the engine is marked ready. -/
theorem ingest_documents_spec (process : String → Except String (List Chunk))
    (embed : String → List ℚ) (st : RAGState) (paths : List String) :
    (successChunks process paths = [] →
      ingest_documents process embed st paths =
        .error "No documents were successfully processed") ∧
      (successChunks process paths ≠ [] →
        ingest_documents process embed st paths =
          .ok (⟨⟨st.vector_store.dimension,
                  st.vector_store.vectors ++
                    ((successChunks process paths).map
                      (fun d => d.content)).map embed,
                  st.vector_store.documents ++ successChunks process paths⟩,
                true⟩,
              ⟨paths.length, (successChunks process paths).length,
                "success"⟩)) := by
  have hfold := ingest_foldl_eq process paths []
  rw [List.nil_append] at hfold
  constructor
  · intro h
    unfold ingest_documents
    rw [hfold, h]
    rfl
  · intro h
    unfold ingest_documents
    rw [hfold]
    rw [if_neg (by simp [List.isEmpty_iff, h])]
    have hadd : (st.vector_store.add_documents (successChunks process paths)
        (((successChunks process paths).map (fun d => d.content)).map embed)) =
        .ok ⟨st.vector_store.dimension,
          st.vector_store.vectors ++
            ((successChunks process paths).map (fun d => d.content)).map embed,
          st.vector_store.documents ++ successChunks process paths⟩ := by
      unfold FAISSVectorStore.add_documents
      rw [if_neg (by simp [List.isEmpty_iff, h]), if_neg (by simp)]
    simp only [hadd]

/-- Processing that fails on one path and succeeds with one chunk on
another. -/
def demoProcess : String → Except String (List Chunk) := fun p =>
  if p = "good.txt" then .ok [demoChunk] else .error "boom"

/-- Witness for the amended C6 theorem: an all-failing batch raises the
no-documents error; a batch with one failing and one succeeding path
ingests the survivor's chunk and marks the engine ready. -/
theorem ingest_documents_spec_witness :
    ingest_documents (fun _ => .error "boom") (fun _ => [0])
        ⟨emptyStore, false⟩ ["a.txt"] =
      .error "No documents were successfully processed" ∧
    ingest_documents demoProcess (fun _ => [0]) ⟨emptyStore, false⟩
        ["bad.txt", "good.txt"] =
      .ok (⟨⟨1536, [] ++ (([demoChunk].map (fun d => d.content)).map
              (fun _ => ([0] : List ℚ))), [] ++ [demoChunk]⟩, true⟩,
           ⟨2, 1, "success"⟩) :=
  ⟨(ingest_documents_spec (fun _ => .error "boom") (fun _ => [0])
      ⟨emptyStore, false⟩ ["a.txt"]).1 rfl,
   (ingest_documents_spec demoProcess (fun _ => [0]) ⟨emptyStore, false⟩
      ["bad.txt", "good.txt"]).2 (by exact List.cons_ne_nil _ _)⟩

/-- C10: whenever `ingest_documents` returns a result (which requires at
least one successfully processed path), its `total_documents` field counts
every input path — failed-and-skipped ones included — not the successfully
processed ones. -/
theorem ingest_total_documents_counts_all_paths
    (process : String → Except String (List Chunk))
    (embed : String → List ℚ) (st : RAGState) (paths : List String)
    (st' : RAGState) (r : IngestResult)
    (h : ingest_documents process embed st paths = .ok (st', r)) :
    r.total_documents = paths.length ∧
      ∃ p ∈ paths, (process p).isOk = true := by
  have hfold := ingest_foldl_eq process paths []
  rw [List.nil_append] at hfold
  unfold ingest_documents at h
  rw [hfold] at h
  by_cases hsc : successChunks process paths = []
  · rw [if_pos (by simp [List.isEmpty_iff, hsc])] at h
    exact absurd h (by simp)
  · rw [if_neg (by simp [List.isEmpty_iff, hsc])] at h
    have hadd : (st.vector_store.add_documents (successChunks process paths)
        (((successChunks process paths).map (fun d => d.content)).map embed)) =
        .ok ⟨st.vector_store.dimension,
          st.vector_store.vectors ++
            ((successChunks process paths).map (fun d => d.content)).map embed,
          st.vector_store.documents ++ successChunks process paths⟩ := by
      unfold FAISSVectorStore.add_documents
      rw [if_neg (by simp [List.isEmpty_iff, hsc]), if_neg (by simp)]
    simp only [hadd] at h
    have hr : r = ⟨paths.length, (successChunks process paths).length,
        "success"⟩ := by
      have := (Except.ok.injEq _ _).mp h
      exact (Prod.mk.injEq _ _ _ _ |>.mp this).2.symm
    rw [hr]
    exact ⟨rfl, successChunks_ne_nil_exists process paths hsc⟩

/-- Witness for C10: one failed path plus one processed path report
`total_documents = 2`. -/
theorem ingest_total_documents_witness :
    ({ total_documents := 2, total_chunks := 1, status := "success" } :
        IngestResult).total_documents =
      (["bad.txt", "good.txt"] : List String).length ∧
      ∃ p ∈ (["bad.txt", "good.txt"] : List String),
        (demoProcess p).isOk = true :=
  ingest_total_documents_counts_all_paths demoProcess (fun _ => [0])
    ⟨emptyStore, false⟩ ["bad.txt", "good.txt"]
    ⟨⟨1536, [[0]], [demoChunk]⟩, true⟩ ⟨2, 1, "success"⟩ rfl

/-! ## Orchestrator fallback path
(src/app/agent.py, AIAgent.process_query, lines 315-391)

The branch taken when the model's first response carries no structured tool
calls but its text may embed a tool invocation.  Python library primitives
(`json.loads`, `str()`, the second chat completion, the retrieval engine)
are injected parameters; the control flow, entry test, markdown cleanup,
regex extraction, quote normalisation, recognition chain, dispatch and
provenance recording are translated from the source. -/

/-- Python `sub in s` substring test on character lists. -/
def containsSub (sub : List Char) : List Char → Bool
  | [] => sub.isEmpty
  | c :: rest => sub.isPrefixOf (c :: rest) || containsSub sub rest

/-- Fuel-driven worker for `listReplace`; the fuel is the input length, and
every step consumes at least one character. -/
def listReplaceFuel (pat rep : List Char) : Nat → List Char → List Char
  | 0, l => l
  | fuel + 1, l =>
    match l with
    | [] => []
    | c :: rest =>
      if !pat.isEmpty && pat.isPrefixOf (c :: rest) then
        rep ++ listReplaceFuel pat rep fuel ((c :: rest).drop pat.length)
      else
        c :: listReplaceFuel pat rep fuel rest

/-- Python `str.replace(pat, rep)`: left-to-right, non-overlapping. -/
def listReplace (l pat rep : List Char) : List Char :=
  listReplaceFuel pat rep l.length l

/-- The `re.search(r'(\{.*\}|\[.*\])', content, re.DOTALL)` match:
leftmost position where either alternative starts, then greedy `.*` up to
the last matching closer anywhere to the right. -/
def regexFindJson : List Char → Option (List Char)
  | [] => none
  | c :: rest =>
    if c = lbrace then
      match lastIdxOf rbrace rest with
      | some j => some (c :: rest.take (j + 1))
      | none => regexFindJson rest
    else if c = lbrack then
      match lastIdxOf rbrack rest with
      | some j => some (c :: rest.take (j + 1))
      | none => regexFindJson rest
    else regexFindJson rest

/-- Quote normalisation of the matched substring: replace every single
quote by a double quote, but only when single quotes are present and double
quotes are not. -/
def fixQuotes (l : List Char) : List Char :=
  if l.contains quoteChar && !(l.contains dquoteChar) then
    l.map (fun c => if c = quoteChar then dquoteChar else c)
  else l

/-- Python `==` between a decoded value and a string literal. -/
def isStrEq (j : Json) (s : String) : Bool :=
  match j with
  | .str t => t = s
  | _ => false

/-- First binding of `key` in a decoded object. -/
def lookupField (fields : List (String × Json)) (key : String) : Option Json :=
  match fields.find? (fun kv => kv.1 = key) with
  | some kv => some kv.2
  | none => none

/-- Python `key in value` for a string key: key membership for dicts,
element equality for lists, substring test for strings, and a `TypeError`
for everything else. -/
def pyContains : Json → String → Except Unit Bool
  | .obj fields, key => .ok (fields.any (fun kv => kv.1 = key))
  | .arr elems, key => .ok (elems.any (fun e => isStrEq e key))
  | .str s, key => .ok (containsSub key.toList s.toList)
  | _, _ => .error ()

/-- Python `value[key]` for a string key: dict lookup (`KeyError` when the
key is absent), `TypeError` for non-dicts. -/
def pyIndex : Json → String → Except Unit Json
  | .obj fields, key =>
    match lookupField fields key with
    | some v => .ok v
    | none => .error ()
  | _, _ => .error ()

/-- Python `value.get(key, default)`: only dicts have `.get`
(`AttributeError` otherwise). -/
def pyGet : Json → String → Json → Except Unit Json
  | .obj fields, key, dflt => .ok ((lookupField fields key).getD dflt)
  | _, _, _ => .error ()

/-- Python `value.get(key)` with the implicit `None` default. -/
def pyGetOpt : Json → String → Except Unit (Option Json)
  | .obj fields, key => .ok (lookupField fields key)
  | _, _ => .error ()

/-- The inner `try` of the fallback path up to recognition of a
`search_documents` invocation (agent.py lines 333-355): `json.loads`
(injected), `tool_data[0]` for lists, one level of `{"function": ...}`
unwrapping, the name check, `tool_data.get("arguments", {})`, and a
best-effort re-parse of string-typed arguments.  `none` covers both a
raised-and-caught step and a failed name check — either way the code
answers with the original content and runs no tool. -/
def recoverToolArgs (loads : List Char → Option Json) (jsonChars : List Char) :
    Option Json :=
  match loads jsonChars with
  | none => none
  | some td0 =>
    let unwrapped : Option Json :=
      match td0 with
      | .arr [] => none
      | .arr (x :: _) => some x
      | j => some j
    match unwrapped with
    | none => none
    | some td1 =>
      match pyContains td1 "function" with
      | .error _ => none
      | .ok hasFn =>
        match (if hasFn then pyIndex td1 "function" else .ok td1) with
        | .error _ => none
        | .ok td2 =>
          match pyContains td2 "name" with
          | .error _ => none
          | .ok hasName =>
            if hasName then
              match pyIndex td2 "name" with
              | .error _ => none
              | .ok nm =>
                if isStrEq nm "search_documents" then
                  match pyGet td2 "arguments" (Json.obj []) with
                  | .error _ => none
                  | .ok args0 =>
                    some (match args0 with
                      | .str s =>
                        (match loads ((s.toList).map
                            (fun c => if c = quoteChar then dquoteChar
                              else c)) with
                         | some j => j
                         | none => .str s)
                      | j => j)
                else none
            else none

/-- One retrieved document as the agent-side formatter consumes it. -/
structure RagResult where
  content : String
  source : String

/-- `AgentTools.search_documents` (agent.py lines 71-86): the injected
retrieval engine may raise (caught into an error string); empty results get
a fixed message; otherwise numbered snippets truncated to 200 characters
with source labels. -/
def tools_search_documents
    (ragSearchFn : Json → Except String (List RagResult)) (query : Json) :
    String :=
  match ragSearchFn query with
  | .error e => "Error searching documents: " ++ e
  | .ok [] => "No relevant documents found."
  | .ok results =>
    String.intercalate "\n\n"
      (results.enum.map (fun p =>
        toString (p.1 + 1) ++ ". " ++ p.2.content.take 200 ++
          "... (Source: " ++ p.2.source ++ ")"))

/-- `AIAgent._execute_tool` dispatch for `search_documents` (agent.py lines
169-172): without a RAG system a fixed unavailable message (before the
arguments are touched); otherwise `arguments.get("query", "")` — an
`AttributeError` when the decoded arguments are not a dict — feeds the
tool. -/
def executeSearchTool (rag : Option (Json → Except String (List RagResult)))
    (arguments : Json) : Except Unit String :=
  match rag with
  | none => .ok "Document search is not available. RAG system not initialized."
  | some ragSearchFn =>
    match pyGet arguments "query" (Json.str "") with
    | .error e => .error e
    | .ok q => .ok (tools_search_documents ragSearchFn q)

/-- Observable outcome of the fallback branch of `process_query`. -/
structure FallbackOutcome where
  answer : String
  tool_calls_made : List (String × Json × String)
  sources : List String
  made_second_call : Bool

/-- The fallback branch of `AIAgent.process_query` (lines 315-391), taken
when the first response carried no structured tool calls.  `loads` models
`json.loads`, `pyToStr` models Python `str()` inside the provenance
f-string, `final` models the second chat completion (`Except.error` = a
raised provider fault, caught by the inner `except`, which then answers
with the original content while keeping the already-recorded tool call). -/
def fallbackBranch (loads : List Char → Option Json) (pyToStr : Json → String)
    (rag : Option (Json → Except String (List RagResult)))
    (final : Except Unit String) (content : String) : FallbackOutcome :=
  let cl := content.toList
  if !cl.isEmpty && containsSub ("search_documents".toList) cl &&
      (cl.contains lbrace || cl.contains lbrack) then
    let cleaned := pystrip
      (listReplace (listReplace cl ("```json".toList) []) ("```".toList) [])
    match regexFindJson cleaned with
    | none => ⟨content, [], [], false⟩
    | some matched =>
      match recoverToolArgs loads (fixQuotes matched) with
      | none => ⟨content, [], [], false⟩
      | some args =>
        match executeSearchTool rag args with
        | .error _ => ⟨content, [], [], false⟩
        | .ok toolResult =>
          match pyGetOpt args "query" with
          | .error _ =>
            ⟨content, [("search_documents", args, toolResult)], [], false⟩
          | .ok q =>
            match final with
            | .ok answer =>
              ⟨answer, [("search_documents", args, toolResult)],
                ["Document search: " ++
                  (match q with | none => "None" | some j => pyToStr j)],
                true⟩
            | .error _ =>
              ⟨content, [("search_documents", args, toolResult)],
                ["Document search: " ++
                  (match q with | none => "None" | some j => pyToStr j)],
                true⟩
  else ⟨content, [], [], false⟩

/-! ## A small JSON parser

Used only to instantiate the abstract `json.loads` parameter on concrete
inputs (no escape sequences, integer numerals). -/

/-- Skip JSON whitespace. -/
def skipWs (l : List Char) : List Char :=
  l.dropWhile (fun c => c = ' ' || c = '\t' || c = '\n' || c = '\r')

/-- Read an escape-free JSON string body up to the closing quote. -/
def parseStringLit (l : List Char) : Option (String × List Char) :=
  match l.dropWhile (fun c => c ≠ dquoteChar) with
  | _ :: rest => some (String.mk (l.takeWhile (fun c => c ≠ dquoteChar)), rest)
  | [] => none

/-- Decimal digits to a natural number. -/
def digitsToNat (ds : List Char) : Nat :=
  ds.foldl (fun n c => 10 * n + (c.toNat - 48)) 0

/-- Parsing mode of `parseCore`. -/
inductive PMode where
  | value
  | members
  | elems

/-- Mode-dependent result of `parseCore`. -/
inductive ParseOut where
  | val (j : Json)
  | mems (ms : List (String × Json))
  | els (es : List Json)

/-- Recursive-descent JSON parser, structurally recursive on its fuel. -/
def parseCore : Nat → PMode → List Char → Option (ParseOut × List Char)
  | 0, _, _ => none
  | fuel + 1, mode, l =>
    match mode with
    | .value =>
      match skipWs l with
      | [] => none
      | c :: rest =>
        if c = dquoteChar then
          (parseStringLit rest).map (fun p => (ParseOut.val (Json.str p.1), p.2))
        else if c = lbrace then
          match skipWs rest with
          | d :: rest2 =>
            if d = rbrace then some (ParseOut.val (Json.obj []), rest2)
            else
              match parseCore fuel .members (skipWs rest) with
              | some (ParseOut.mems ms, r) =>
                some (ParseOut.val (Json.obj ms), r)
              | _ => none
          | [] => none
        else if c = lbrack then
          match skipWs rest with
          | d :: rest2 =>
            if d = rbrack then some (ParseOut.val (Json.arr []), rest2)
            else
              match parseCore fuel .elems (skipWs rest) with
              | some (ParseOut.els es, r) =>
                some (ParseOut.val (Json.arr es), r)
              | _ => none
          | [] => none
        else if c = 't' then
          if rest.take 3 = ['r', 'u', 'e'] then
            some (ParseOut.val (Json.bool true), rest.drop 3)
          else none
        else if c = 'f' then
          if rest.take 4 = ['a', 'l', 's', 'e'] then
            some (ParseOut.val (Json.bool false), rest.drop 4)
          else none
        else if c = 'n' then
          if rest.take 3 = ['u', 'l', 'l'] then
            some (ParseOut.val Json.null, rest.drop 3)
          else none
        else if c = '-' then
          let ds := rest.takeWhile Char.isDigit
          if ds.isEmpty then none
          else some (ParseOut.val (Json.num (-(digitsToNat ds : Int))),
            rest.drop ds.length)
        else if c.isDigit then
          let ds := (c :: rest).takeWhile Char.isDigit
          some (ParseOut.val (Json.num (digitsToNat ds : Int)),
            (c :: rest).drop ds.length)
        else none
    | .members =>
      match skipWs l with
      | c :: rest =>
        if c = dquoteChar then
          match parseStringLit rest with
          | some (key, r1) =>
            match skipWs r1 with
            | d :: r2 =>
              if d = ':' then
                match parseCore fuel .value r2 with
                | some (ParseOut.val v, r3) =>
                  match skipWs r3 with
                  | e :: r4 =>
                    if e = ',' then
                      match parseCore fuel .members r4 with
                      | some (ParseOut.mems ms, r5) =>
                        some (ParseOut.mems ((key, v) :: ms), r5)
                      | _ => none
                    else if e = rbrace then
                      some (ParseOut.mems [(key, v)], r4)
                    else none
                  | [] => none
                | _ => none
              else none
            | [] => none
          | none => none
        else none
      | [] => none
    | .elems =>
      match parseCore fuel .value l with
      | some (ParseOut.val v, r1) =>
        match skipWs r1 with
        | e :: r2 =>
          if e = ',' then
            match parseCore fuel .elems r2 with
            | some (ParseOut.els es, r3) => some (ParseOut.els (v :: es), r3)
            | _ => none
          else if e = rbrack then some (ParseOut.els [v], r2)
          else none
        | [] => none
      | _ => none

/-- Complete-input JSON parse: the concrete instantiation of `json.loads`
(a parse with trailing garbage is a `JSONDecodeError`). -/
def jsonLoads (l : List Char) : Option Json :=
  match parseCore (l.length + 1) PMode.value l with
  | some (ParseOut.val j, rest) =>
    if (skipWs rest).isEmpty then some j else none
  | _ => none

/-- A model response that embeds the canonical tool invocation in prose. -/
def demoFallbackContent : String :=
  "I will call search_documents now: \x7b\"name\": \"search_documents\", \"arguments\": \x7b\"query\": \"x\"\x7d\x7d"

/-- A model response that mentions the tool and has braces but no valid
JSON. -/
def demoBadFallbackContent : String :=
  "search_documents \x7bnot valid json\x7d"

/-- C4: with a document-search engine configured, the fallback branch
either recovers and executes the document-search tool exactly once and
issues the second completion, or returns the original response text
verbatim with no tool executed and no second completion; on a response
embedding `\x7b"name": "search_documents", "arguments": \x7b"query":
"x"\x7d\x7d` in prose the first arm is taken with the decoded query
argument, and on a response whose braces hold no parseable invocation the
verbatim arm is taken. -/
theorem process_query_fallback_spec :
    (∀ (loads : List Char → Option Json) (pyToStr : Json → String)
      (f : Json → Except String (List RagResult)) (final : Except Unit String)
      (content : String),
      ((fallbackBranch loads pyToStr (some f) final content).tool_calls_made.map
          (fun t => t.1) = ["search_documents"] ∧
        (fallbackBranch loads pyToStr (some f) final
          content).made_second_call = true) ∨
        ((fallbackBranch loads pyToStr (some f) final content).answer =
            content ∧
          (fallbackBranch loads pyToStr (some f) final
            content).tool_calls_made = [] ∧
          (fallbackBranch loads pyToStr (some f) final
            content).made_second_call = false)) ∧
      (∀ (pyToStr : Json → String)
        (f : Json → Except String (List RagResult)) (answer : String),
        (fallbackBranch jsonLoads pyToStr (some f) (.ok answer)
            demoFallbackContent).answer = answer ∧
          (fallbackBranch jsonLoads pyToStr (some f) (.ok answer)
              demoFallbackContent).tool_calls_made.map (fun t => (t.1, t.2.1)) =
            [("search_documents", Json.obj [("query", Json.str "x")])] ∧
          (fallbackBranch jsonLoads pyToStr (some f) (.ok answer)
            demoFallbackContent).made_second_call = true) ∧
      ∀ (pyToStr : Json → String) (f : Json → Except String (List RagResult))
        (final : Except Unit String),
        fallbackBranch jsonLoads pyToStr (some f) final
            demoBadFallbackContent =
          ⟨demoBadFallbackContent, [], [], false⟩ := by
  refine ⟨?_, ?_, ?_⟩
  · intro loads pyToStr f final content
    unfold fallbackBranch
    dsimp only
    split
    · split
      · right; exact ⟨rfl, rfl, rfl⟩
      · split
        · right; exact ⟨rfl, rfl, rfl⟩
        · rename_i args hrec
          cases args with
          | obj fields =>
            dsimp only [executeSearchTool, pyGet, pyGetOpt]
            cases final with
            | ok a => left; exact ⟨rfl, rfl⟩
            | error e => left; exact ⟨rfl, rfl⟩
          | null => right; exact ⟨rfl, rfl, rfl⟩
          | bool b => right; exact ⟨rfl, rfl, rfl⟩
          | num n => right; exact ⟨rfl, rfl, rfl⟩
          | str s => right; exact ⟨rfl, rfl, rfl⟩
          | arr es => right; exact ⟨rfl, rfl, rfl⟩
    · right; exact ⟨rfl, rfl, rfl⟩
  · intro pyToStr f answer
    exact ⟨rfl, rfl, rfl⟩
  · intro pyToStr f final
    rfl

end AgentRag
